import Mathlib

/-!
# Verification of the concurrent multi-probe identity lookup engine

Shallow embedding of the email-checking path (`backend.py`) and the
username-checking path (`username_tracker/services/maigret_service.py`)
of the repository, together with proofs settling the specification claims.

Python dictionaries produced by the code are embedded as Lean structures
whose fields are exactly the keys every construction site populates;
Python strings are Lean `String`s (`List Char` where character-level
matching is needed); a Python function that may raise is embedded as a
function into `Except`.
-/

namespace Engine

/-- A raw per-probe result dictionary, as appended to the shared `results`
list either by a probe implementation (per the probe capability contract)
or by the error handler of `launch_module_check` in `backend.py`.
Every construction site populates all eight keys, so the fields are total. -/
structure Result where
  name : String
  domain : String
  rateLimit : Bool
  error : Bool
  exists_ : Bool
  emailrecovery : Option String
  phoneNumber : Option String
  others : Option (List (String × String))
deriving DecidableEq

/-- A Python exception value raised by a probe invocation.  The handler in
`launch_module_check` binds the exception as `e` and never inspects it. -/
inductive Exn where
  | timeout
  | other (msg : String)
deriving DecidableEq

/-- An exception that escapes the engine to the caller. -/
inductive PyErr where
  | valueError (msg : String)
  | indexError
deriving DecidableEq

instance {ε α : Type} [DecidableEq ε] [DecidableEq α] :
    DecidableEq (Except ε α) :=
  fun a b =>
    match a, b with
    | .error e, .error f =>
      if h : e = f then .isTrue (by rw [h])
      else .isFalse (fun hh => by cases hh; exact h rfl)
    | .error _, .ok _ => .isFalse (fun hh => Except.noConfusion hh)
    | .ok _, .error _ => .isFalse (fun hh => Except.noConfusion hh)
    | .ok x, .ok y =>
      if h : x = y then .isTrue (by rw [h])
      else .isFalse (fun hh => by cases hh; exact h rfl)

/-- A probe as the engine sees it: the runtime string representation
`str(module)` and its callable behavior, which on a given email either
appends a list of result records or raises (the probe capability contract:
populate a result structure or raise, with no other visible side effect). -/
structure Probe where
  strRepr : String
  behavior : String → Except Exn (List Result)

/-- `DOMAIN_MAP` from `backend.py`: mapping from service name to domain. -/
def DOMAIN_MAP : List (String × String) :=
  [("aboutme", "about.me"), ("adobe", "adobe.com"), ("amazon", "amazon.com"),
   ("anydo", "any.do"), ("archive", "archive.org"),
   ("armurerieauxerre", "armurerie-auxerre.com"),
   ("atlassian", "atlassian.com"), ("instagram", "instagram.com"),
   ("twitter", "twitter.com"), ("github", "github.com"),
   ("google", "google.com"), ("spotify", "spotify.com"),
   ("discord", "discord.com"), ("tumblr", "tumblr.com"),
   ("pinterest", "pinterest.com"), ("facebook", "facebook.com"),
   ("linkedin", "linkedin.com"), ("snapchat", "snapchat.com"),
   ("reddit", "reddit.com"), ("tiktok", "tiktok.com"),
   ("netflix", "netflix.com")]

/-- Python `DOMAIN_MAP.get(name, "unknown")`. -/
def domainMapGet (name : String) : String :=
  ((DOMAIN_MAP.lookup name).getD "unknown")

/-- Split off the part of `l` before the first occurrence of `sep` and the
part after it; `none` when `sep` (nonempty at every use) does not occur. -/
def pySplitOnce (sep : List Char) : List Char → Option (List Char × List Char)
  | [] => none
  | c :: cs =>
    if sep.isPrefixOf (c :: cs) then some ([], (c :: cs).drop sep.length)
    else
      match pySplitOnce sep cs with
      | none => none
      | some (p, r) => some (c :: p, r)

/-- Fuelled worker for `pySplit`; each found occurrence strictly shortens
the remainder, so `l.length` fuel always suffices. -/
def pySplitAux (sep : List Char) : Nat → List Char → List (List Char)
  | 0, l => [l]
  | fuel + 1, l =>
    match pySplitOnce sep l with
    | none => [l]
    | some (p, r) => p :: pySplitAux sep fuel r

/-- Python `s.split(sep)` for a nonempty separator: the segments between
consecutive leftmost non-overlapping occurrences of `sep`. -/
def pySplit (sep l : List Char) : List (List Char) :=
  pySplitAux sep l.length l

/-- Python `sub in s` substring membership. -/
def containsSub (sub : List Char) : List Char → Bool
  | [] => sub.isEmpty
  | c :: cs => sub.isPrefixOf (c :: cs) || containsSub sub cs

/-- Python `sub in s` on strings. -/
def pyContains (s sub : String) : Bool :=
  containsSub sub.data s.data

/-- The name-extraction expression of the error handler in
`launch_module_check`:
`str(module).split('<function ')[1].split(' ')[0] if '<function' in str(module) else 'unknown'`.
`none` models the `IndexError` raised by the `[1]` subscript when
`'<function'` occurs in the representation but `'<function '` does not. -/
def extractName (s : String) : Option String :=
  if pyContains s "<function" then
    match pySplit "<function ".data s.data with
    | _ :: t :: _ => some (String.mk ((pySplit [' '] t).headD []))
    | _ => none
  else
    some "unknown"

/-- The name derivation as the specification claim words it: if the
representation contains `'<function '` the name is the token following it,
otherwise the name is the literal `"unknown"`.  (`pySplit` yields more
than one part exactly when the separator occurs.)  Stated for comparison
with the code's `extractName`. -/
def extractNameClaimed (s : String) : String :=
  match pySplit "<function ".data s.data with
  | _ :: t :: _ => String.mk ((pySplit [' '] t).headD [])
  | _ => "unknown"

/-- The errored result record appended by the handler of
`launch_module_check`. -/
def erroredRecord (name : String) : Result :=
  { name := name
    domain := domainMapGet name
    rateLimit := false
    error := true
    exists_ := false
    emailrecovery := none
    phoneNumber := none
    others := none }

/-- `launch_module_check` from `backend.py`: run one probe; on success the
records the probe appended extend `results`; if the probe raises, the
handler appends one errored record carrying the parsed name and mapped
domain — unless name extraction itself raises `IndexError`, which escapes. -/
def launch_module_check (module : Probe) (email : String)
    (results : List Result) : Except PyErr (List Result) :=
  match module.behavior email with
  | .ok appended => .ok (results ++ appended)
  | .error _e =>
    match extractName module.strRepr with
    | some name => .ok (results ++ [erroredRecord name])
    | none => .error .indexError

/-! ## Email format validation

`EMAIL_FORMAT = r'\b[A-Za-z0-9._%+-]+@[A-Za-z0-9.-]+\.[A-Z|a-z]{2,}\b'`
checked with `re.fullmatch`.  Under `fullmatch` the leading `\b` is a
boundary exactly when the first character is a word character, the
trailing `\b` exactly when the last character is one, and backtracking
over the greedy pieces amounts to the existence of a decomposition
`local-part ++ '@' ++ domain-part ++ '.' ++ tld` with the character
classes below; the disjunctions in the recursive matchers realise that
existential choice. -/

/-- The class `[A-Za-z0-9._%+-]` (local part). -/
def isP (c : Char) : Bool :=
  c.isAlphanum || c == '.' || c == '_' || c == '%' || c == '+' || c == '-'

/-- The class `[A-Za-z0-9.-]` (domain part). -/
def isQ (c : Char) : Bool :=
  c.isAlphanum || c == '.' || c == '-'

/-- The class `[A-Z|a-z]` (top-level part; the literal `|` is a member). -/
def isR (c : Char) : Bool :=
  c.isAlpha || c == '|'

/-- A regex word character `[A-Za-z0-9_]`, for `\b`. -/
def isWordChar (c : Char) : Bool :=
  c.isAlphanum || c == '_'

/-- Matches `[A-Z|a-z]{2,}` against the remainder of the string. -/
def isRTail (l : List Char) : Bool :=
  decide (l.length ≥ 2) && l.all isR

/-- Matches `[A-Za-z0-9.-]* \. [A-Z|a-z]{2,}` after at least one domain
character has been consumed; the left disjunct commits the separating dot
here, the right consumes one more domain character. -/
def domAfterQ : List Char → Bool
  | [] => false
  | c :: cs => (c == '.' && isRTail cs) || (isQ c && domAfterQ cs)

/-- Matches `[A-Za-z0-9.-]+ \. [A-Z|a-z]{2,}` (the part after `@`). -/
def matchDomain : List Char → Bool
  | [] => false
  | c :: cs => isQ c && domAfterQ cs

/-- Matches `[A-Za-z0-9._%+-]* @ domain` after at least one local-part
character has been consumed. -/
def afterP : List Char → Bool
  | [] => false
  | c :: cs => (c == '@' && matchDomain cs) || (isP c && afterP cs)

/-- Matches `[A-Za-z0-9._%+-]+ @ domain`. -/
def matchLocalAndDomain : List Char → Bool
  | [] => false
  | c :: cs => isP c && afterP cs

/-- `is_valid_email` from `backend.py`:
`bool(re.fullmatch(EMAIL_FORMAT, email))`. -/
def is_valid_email (email : String) : Bool :=
  match email.data with
  | [] => false
  | c0 :: _ =>
    isWordChar c0 &&
    (match email.data.getLast? with
     | some cl => isWordChar cl
     | none => false) &&
    matchLocalAndDomain email.data

/-! ## The email batch: fan-out, collection and sorting -/

/-- The nursery body of `check_email_trio`: every probe is started and its
outcome (or handler record) lands in the shared `results` list; a `PyErr`
escaping `launch_module_check` cancels the batch and propagates.  The list
order of `websites` stands for one arrival linearisation of the
concurrent completions. -/
def runProbes (email : String) (websites : List Probe)
    (results : List Result) : Except PyErr (List Result) :=
  match websites with
  | [] => .ok results
  | w :: ws =>
    match launch_module_check w email results with
    | .ok results2 => runProbes email ws results2
    | .error e => .error e

/-- Python `<=` on strings: lexicographic comparison of Unicode code
points. -/
def pyStrLeChars : List Char → List Char → Bool
  | [], _ => true
  | _ :: _, [] => false
  | c :: cs, d :: ds =>
    if c.toNat < d.toNat then true
    else if d.toNat < c.toNat then false
    else pyStrLeChars cs ds

/-- Python `<=` on strings. -/
def pyStrLe (a b : String) : Bool :=
  pyStrLeChars a.data b.data

/-- `results.sort(key=lambda x: x.get('name', ''))` from
`check_email_trio`: a stable sort keyed by the record's name under
Python's string order. -/
def sortResults (results : List Result) : List Result :=
  results.mergeSort (fun a b => pyStrLe a.name b.name)

/-- `check_email_trio` from `backend.py`: validate the email (raising
`ValueError` on failure before any probe is considered), run every probe
of the resolved catalog, then sort the collected results by name. -/
def check_email_trio (email : String) (websites : List Probe) :
    Except PyErr (List Result) :=
  if !is_valid_email email then
    .error (.valueError ("Invalid email format: " ++ email))
  else
    match runProbes email websites [] with
    | .ok results => .ok (sortResults results)
    | .error e => .error e

/-! ## The email response formatter -/

/-- The `PlatformInfo` pydantic model of `backend.py`; omitted optional
fields default to `None`. -/
structure PlatformInfo where
  platform : String
  name : String
  exists_ : Bool
  email_recovery : Option String
  phone_number : Option String
  additional_info : Option (List (String × String))
deriving DecidableEq

/-- The `EmailCheckResponse` pydantic model of `backend.py`. -/
structure EmailCheckResponse where
  success : Bool
  email : String
  total_checked : Nat
  found_count : Nat
  platforms_found : List String
  detailed_results : Option (List PlatformInfo)
  checked_at : String
deriving DecidableEq

/-- The loop body of `format_results`: walk the raw results in order,
collecting `platforms_found` and `detailed_results`.  A record with a
truthy `exists` contributes its domain to `platforms_found` and a full
`PlatformInfo`; any other record contributes a bare `PlatformInfo` only
when `only_found` is off. -/
def foundInfo (r : Result) : PlatformInfo :=
  { platform := r.domain
    name := r.name
    exists_ := true
    email_recovery := r.emailrecovery
    phone_number := r.phoneNumber
    additional_info := r.others }

def notFoundInfo (r : Result) : PlatformInfo :=
  { platform := r.domain
    name := r.name
    exists_ := false
    email_recovery := none
    phone_number := none
    additional_info := none }

def collectPartitions (raw : List Result) (only_found : Bool) :
    List String × List PlatformInfo :=
  match raw with
  | [] => ([], [])
  | r :: rs =>
    let rest := collectPartitions rs only_found
    if r.exists_ then
      (r.domain :: rest.1, foundInfo r :: rest.2)
    else if !only_found then
      (rest.1, notFoundInfo r :: rest.2)
    else
      rest

/-- `format_results` from `backend.py`.  `checked_at` stands for the
`datetime.utcnow().isoformat()` clock reading, passed in as data. -/
def format_results (raw_results : List Result) (email : String)
    (only_found : Bool) (checked_at : String) : EmailCheckResponse :=
  let parts := collectPartitions raw_results only_found
  { success := true
    email := email
    total_checked := raw_results.length
    found_count := parts.1.length
    platforms_found := parts.1
    detailed_results := if !only_found then some parts.2 else none
    checked_at := checked_at }

/-! ## The username path (`maigret_service.py`) -/

/-- The `status` object attached to a raw Maigret site result: the code
reads `getattr(status_obj, "status", None)` and
`list(getattr(status_obj, "tags", []) or [])`. -/
structure MaigretStatus where
  status : Option String
  tags : List String
deriving DecidableEq

/-- One raw site entry of the dict returned by `maigret.search`; keys read
by the conversion loop. -/
structure MaigretSiteData where
  url_main : Option String
  url_user : Option String
  category : Option String
  status : Option MaigretStatus
deriving DecidableEq

/-- The JSON-friendly per-site entry built by the conversion loop of
`maigret_search_username`. -/
structure MaigretEntry where
  site : String
  url_main : Option String
  url_user : Option String
  category : Option String
  status : Option String
  tags : List String
deriving DecidableEq

/-- The aggregate dictionary returned by `maigret_search_username`. -/
structure MaigretResponse where
  username : String
  sites_found : List MaigretEntry
  sites_not_found : List MaigretEntry
  total_sites_checked : Nat
deriving DecidableEq

/-- Build one entry from a `(site_name, site_data)` pair, as the loop body
does. -/
def toMaigretEntry (p : String × MaigretSiteData) : MaigretEntry :=
  { site := p.1
    url_main := p.2.url_main
    url_user := p.2.url_user
    category := p.2.category
    status := p.2.status.bind (·.status)
    tags := (p.2.status.map (·.tags)).getD [] }

/-- Python `str.lower()` on one character (ASCII range; every status
string the code compares against is ASCII). -/
def pyLowerChar (c : Char) : Char :=
  if 65 ≤ c.toNat ∧ c.toNat ≤ 90 then Char.ofNat (c.toNat + 32) else c

/-- Python `str.lower()`. -/
def pyLower (s : String) : String :=
  String.mk (s.data.map pyLowerChar)

/-- The branch condition
`if status_str and str(status_str).lower() in {"claimed", "found"}`:
a missing status (`None`) and the empty string are falsy. -/
def statusIsFound : Option String → Bool
  | some s => !(s == "") && (pyLower s == "claimed" || pyLower s == "found")
  | none => false

/-- The partition condition as the specification claim words it: a site is
found exactly when its status string, lowercased, is `"claimed"` or
`"found"`; a missing status is not found.  Stated for comparison with the
code's `statusIsFound`. -/
def statusClaimedOrFound : Option String → Bool
  | some s => pyLower s == "claimed" || pyLower s == "found"
  | none => false

/-- The result-conversion half of `maigret_search_username`
(`maigret_service.py`): walk the raw `dict[site_name -> site_data]` in
iteration order, build an entry per site, and place it in `sites_found`
exactly when its status passes `statusIsFound`, else in
`sites_not_found`; `total_sites_checked = len(raw_results)`.
The awaited `maigret.search` network call supplies `raw_results`. -/
def maigret_search_username (username : String)
    (raw_results : List (String × MaigretSiteData)) : MaigretResponse :=
  let entries := raw_results.map toMaigretEntry
  { username := username
    sites_found := entries.filter (fun e => statusIsFound e.status)
    sites_not_found := entries.filter (fun e => !statusIsFound e.status)
    total_sites_checked := raw_results.length }

/-! ## The site catalog (`_load_sites`) -/

/-- One site descriptor of the Maigret database, with the attributes the
filter consults. -/
structure Site where
  name : String
  tags : List String
  disabled : Bool
deriving DecidableEq

/-- The catalog failure mode the specification posits for resolution; the
return type of `_load_sites` carries it so the claim about it is
statable. -/
inductive CatalogError where
  | unknownProbe (name : String)
deriving DecidableEq

/-- Modelled from the spec: `MaigretDatabase.ranked_sites_dict` is
third-party code (the `maigret` package), not part of this repository.
Per its use here — the router documents `site_list` as "Explicit list of
site names to check" and `tags` as "Filter sites by tags", and the call
passes `disabled=False` and `top=top_sites` — it is modelled as the pure
filter keeping enabled sites whose name is listed (when `names` is
non-empty) and having some listed tag (when `tags` is non-empty), truncated
to `top`.  A name matching no site simply selects nothing. -/
def ranked_sites_dict (db : List Site) (top : Nat)
    (tags names : List String) : List Site :=
  (db.filter (fun s =>
    !s.disabled &&
    (names.isEmpty || names.contains s.name) &&
    (tags.isEmpty || s.tags.any (fun t => tags.contains t)))).take top

/-- `_load_sites` from `maigret_service.py`: default the optional `tags`
and `site_list` to `[]` (`tags or []`, `site_list or []`) and delegate to
the database filter.  The code has no validation path: the `Except` is
always `.ok`. -/
def load_sites (db : List Site) (top_sites : Nat)
    (tags site_list : Option (List String)) :
    Except CatalogError (List Site) :=
  .ok (ranked_sites_dict db top_sites (tags.getD []) (site_list.getD []))

/-! ## Concrete fixtures used to instantiate the theorems -/

/-- A probe with the usual function representation whose invocation
raises. -/
def probeAmazonRaising : Probe :=
  ⟨"<function amazon at 0x7f3a2c>", fun _ => .error .timeout⟩

/-- A probe whose invocation raises and whose runtime representation
contains `<function` but not `<function ` (e.g. a callable object with a
custom `__repr__`), driving the handler's `[1]` subscript into
`IndexError`. -/
def probeBadRepr : Probe :=
  ⟨"<function", fun _ => .error .timeout⟩

/-- A catalog site named `SiteA`. -/
def siteA : Site := ⟨"SiteA", ["social"], false⟩

/-- A catalog site named `SiteB`. -/
def siteB : Site := ⟨"SiteB", ["tech"], false⟩

/-- A raw Maigret site payload with no data, status missing. -/
def emptySiteData : MaigretSiteData := ⟨none, none, none, none⟩

/-! ## Order lemmas for the Python string comparison -/

theorem pyStrLeChars_total (a b : List Char) :
    (pyStrLeChars a b || pyStrLeChars b a) = true := by
  induction a generalizing b with
  | nil => simp [pyStrLeChars]
  | cons c cs ih =>
    cases b with
    | nil => simp [pyStrLeChars]
    | cons d ds =>
      simp only [pyStrLeChars]
      rcases Nat.lt_trichotomy c.toNat d.toNat with h | h | h
      · simp [h]
      · have := ih ds
        simp only [Bool.or_eq_true] at this
        simp [h, Nat.lt_irrefl, this]
      · simp [h, Nat.lt_asymm h]

theorem pyStrLeChars_trans (a b c : List Char)
    (hab : pyStrLeChars a b = true) (hbc : pyStrLeChars b c = true) :
    pyStrLeChars a c = true := by
  induction a generalizing b c with
  | nil => simp [pyStrLeChars]
  | cons x xs ih =>
    cases b with
    | nil => simp [pyStrLeChars] at hab
    | cons y ys =>
      cases c with
      | nil => simp [pyStrLeChars] at hbc
      | cons z zs =>
        simp only [pyStrLeChars] at hab hbc ⊢
        by_cases hxy : x.toNat < y.toNat
        · by_cases hyz : y.toNat < z.toNat
          · simp [Nat.lt_trans hxy hyz]
          · by_cases hzy : z.toNat < y.toNat
            · simp [hyz, hzy] at hbc
            · have : y.toNat = z.toNat := Nat.le_antisymm
                (Nat.le_of_not_lt hzy) (Nat.le_of_not_lt hyz)
              simp [this ▸ hxy]
        · by_cases hyx : y.toNat < x.toNat
          · simp [hxy, hyx] at hab
          · have hxyeq : x.toNat = y.toNat := Nat.le_antisymm
              (Nat.le_of_not_lt hyx) (Nat.le_of_not_lt hxy)
            simp only [hxy, if_false, hyx, if_false] at hab
            by_cases hyz : y.toNat < z.toNat
            · simp [hxyeq ▸ hyz]
            · by_cases hzy : z.toNat < y.toNat
              · simp [hyz, hzy] at hbc
              · have hyzeq : y.toNat = z.toNat := Nat.le_antisymm
                  (Nat.le_of_not_lt hzy) (Nat.le_of_not_lt hyz)
                simp only [hyz, if_false, hzy, if_false] at hbc
                have hxz : ¬ x.toNat < z.toNat := by omega
                have hzx : ¬ z.toNat < x.toNat := by omega
                simp [hxz, hzx, ih ys zs hab hbc]

theorem pyStrLeChars_antisymm (a b : List Char)
    (hab : pyStrLeChars a b = true) (hba : pyStrLeChars b a = true) :
    a = b := by
  induction a generalizing b with
  | nil =>
    cases b with
    | nil => rfl
    | cons d ds => simp [pyStrLeChars] at hba
  | cons c cs ih =>
    cases b with
    | nil => simp [pyStrLeChars] at hab
    | cons d ds =>
      simp only [pyStrLeChars] at hab hba
      by_cases hcd : c.toNat < d.toNat
      · simp [hcd, Nat.lt_asymm hcd] at hba
      · by_cases hdc : d.toNat < c.toNat
        · simp [hcd, hdc] at hab
        · have hceq : c = d := Char.ext (UInt32.toNat.inj
            (Nat.le_antisymm (Nat.le_of_not_lt hdc) (Nat.le_of_not_lt hcd)))
          simp only [hcd, if_false, hdc, if_false] at hab hba
          rw [hceq, ih ds hab hba]

theorem pyStrLe_trans (a b c : String)
    (hab : pyStrLe a b = true) (hbc : pyStrLe b c = true) :
    pyStrLe a c = true :=
  pyStrLeChars_trans a.data b.data c.data hab hbc

theorem pyStrLe_total (a b : String) :
    (pyStrLe a b || pyStrLe b a) = true :=
  pyStrLeChars_total a.data b.data

theorem pyStrLe_antisymm (a b : String)
    (hab : pyStrLe a b = true) (hba : pyStrLe b a = true) : a = b :=
  String.ext (pyStrLeChars_antisymm a.data b.data hab hba)

/-- Two lists that are permutations of one another, both sorted under the
name key, with pairwise-distinct keys, are equal. -/
theorem eq_of_perm_of_sorted_of_nodup_key {α : Type} (f : α → String) :
    ∀ (l₁ l₂ : List α), l₁.Perm l₂ → ((l₁.map f).Nodup) →
    l₁.Sorted (fun a b => pyStrLe (f a) (f b) = true) →
    l₂.Sorted (fun a b => pyStrLe (f a) (f b) = true) → l₁ = l₂
  | [], l₂, hp, _, _, _ => by
    rw [(List.nil_perm).mp hp]
  | a :: t₁, [], hp, _, _, _ => by
    exact absurd ((List.perm_nil).mp hp) (by simp)
  | a :: t₁, b :: t₂, hp, hnd, hs₁, hs₂ => by
    have hab : a = b := by
      by_contra hne
      have hain : a ∈ b :: t₂ := hp.mem_iff.mp (by simp)
      have hbin : b ∈ a :: t₁ := hp.mem_iff.mpr (by simp)
      have hat₂ : a ∈ t₂ := by
        rcases List.mem_cons.mp hain with h | h
        · exact absurd h hne
        · exact h
      have hbt₁ : b ∈ t₁ := by
        rcases List.mem_cons.mp hbin with h | h
        · exact absurd h.symm hne
        · exact h
      have h₁ : pyStrLe (f a) (f b) = true :=
        List.rel_of_sorted_cons hs₁ b hbt₁
      have h₂ : pyStrLe (f b) (f a) = true :=
        List.rel_of_sorted_cons hs₂ a hat₂
      have hfe : f a = f b := pyStrLe_antisymm _ _ h₁ h₂
      have hsplit : f a ∉ (t₁.map f) ∧ (t₁.map f).Nodup := by
        rw [List.map_cons] at hnd
        exact List.nodup_cons.mp hnd
      exact hsplit.1 (hfe ▸ List.mem_map_of_mem f hbt₁)
    subst hab
    have hsplit : f a ∉ (t₁.map f) ∧ (t₁.map f).Nodup := by
      rw [List.map_cons] at hnd
      exact List.nodup_cons.mp hnd
    have ht : t₁ = t₂ :=
      eq_of_perm_of_sorted_of_nodup_key f t₁ t₂ hp.cons_inv
        hsplit.2 hs₁.of_cons hs₂.of_cons
    rw [ht]

/-! ## Structure of the collected partitions -/

theorem collectPartitions_false (raw : List Result) :
    (collectPartitions raw false).1 =
      (raw.filter (fun r => r.exists_)).map (fun r => r.domain) ∧
    (collectPartitions raw false).2 =
      raw.map (fun r => if r.exists_ then foundInfo r else notFoundInfo r) := by
  induction raw with
  | nil => exact ⟨rfl, rfl⟩
  | cons r rs ih =>
    cases hr : r.exists_ with
    | true => simp [collectPartitions, hr, ih.1, ih.2]
    | false => simp [collectPartitions, hr, ih.1, ih.2]

theorem exists_of_partition (r : Result) :
    (if r.exists_ then foundInfo r else notFoundInfo r).exists_ = r.exists_ := by
  cases hr : r.exists_ <;> simp [hr, foundInfo, notFoundInfo]

/-- The code's partition test agrees with the claimed
lowercased-status-membership test: the extra Python truthiness check on
the status string is redundant, because the empty string lowercases to
the empty string, which is neither `"claimed"` nor `"found"`. -/
theorem statusIsFound_eq (os : Option String) :
    statusIsFound os = statusClaimedOrFound os := by
  cases os with
  | none => rfl
  | some s =>
    cases hs : s == "" with
    | true =>
      have : s = "" := by simpa using hs
      subst this
      decide
    | false => simp [statusIsFound, statusClaimedOrFound, hs]

/-- C1: for every sealed batch the aggregate satisfies
`total_checked == len(found) + len(not_found)`.  In the email path
`format_results` reports `total_checked = len(raw_results)` and, with the
full response, partitions every raw outcome into exactly one side (truthy
`exists` into the found lists, everything else — errored included — into
the not-found entries); in the username path `total_sites_checked` is
`len(raw_results)` and every site lands in exactly one of
`sites_found`/`sites_not_found`. -/
theorem C1_total_checked_partition (raw : List Result) (email ts u : String)
    (rawm : List (String × MaigretSiteData)) :
    ((format_results raw email false ts).total_checked = raw.length ∧
     (format_results raw email false ts).found_count =
       (raw.filter (fun r => r.exists_)).length ∧
     ∃ d, (format_results raw email false ts).detailed_results = some d ∧
       d.length = raw.length ∧
       (d.filter (fun p => p.exists_)).length =
         (raw.filter (fun r => r.exists_)).length ∧
       (d.filter (fun p => !p.exists_)).length =
         (raw.filter (fun r => !r.exists_)).length ∧
       (format_results raw email false ts).total_checked =
         (format_results raw email false ts).found_count +
           (d.filter (fun p => !p.exists_)).length) ∧
    ((maigret_search_username u rawm).total_sites_checked = rawm.length ∧
     (maigret_search_username u rawm).total_sites_checked =
       (maigret_search_username u rawm).sites_found.length +
         (maigret_search_username u rawm).sites_not_found.length) := by
  have hcp := collectPartitions_false raw
  constructor
  · refine ⟨rfl, ?_, ?_⟩
    · show (collectPartitions raw false).1.length = _
      rw [hcp.1, List.length_map]
    · refine ⟨(collectPartitions raw false).2, ?_, ?_, ?_, ?_, ?_⟩
      · simp [format_results]
      · rw [hcp.2, List.length_map]
      · rw [hcp.2, List.filter_map]
        rw [List.length_map]
        congr 1
        apply List.filter_congr
        intro r _
        exact exists_of_partition r
      · rw [hcp.2, List.filter_map]
        rw [List.length_map]
        congr 1
        apply List.filter_congr
        intro r _
        simp [exists_of_partition r]
      · show raw.length = (collectPartitions raw false).1.length + _
        rw [hcp.1, hcp.2, List.filter_map, List.length_map, List.length_map]
        have hflt : List.filter ((fun p : PlatformInfo => !p.exists_) ∘
            fun r => if r.exists_ then foundInfo r else notFoundInfo r) raw =
            List.filter (fun r => !r.exists_) raw := by
          apply List.filter_congr
          intro r _
          simp [exists_of_partition r]
        rw [hflt]
        exact List.length_eq_length_filter_add (fun r : Result => r.exists_)
  · refine ⟨rfl, ?_⟩
    show rawm.length = _
    have := @List.length_eq_length_filter_add _ (rawm.map toMaigretEntry)
      (fun e => statusIsFound e.status)
    simpa [maigret_search_username] using this

/-- C6: with found-only mode set, the detailed/not-found list is omitted
entirely (`None`, not an empty list), while `total_checked` is still the
full raw-result count, identical to its value without found-only mode. -/
theorem C6_found_only_omission (raw : List Result) (email ts : String) :
    (format_results raw email true ts).detailed_results = none ∧
    (format_results raw email true ts).total_checked = raw.length ∧
    (format_results raw email true ts).total_checked =
      (format_results raw email false ts).total_checked :=
  ⟨rfl, rfl, rfl⟩

/-- C8: in the username path a site lands in `sites_found` exactly when
its status string, lowercased, is `"claimed"` or `"found"`; every other
outcome — missing status and provider errors included — lands in
`sites_not_found`; and the email path partitions on the truthiness of the
`exists` field alone. -/
theorem C8_partition_condition :
    (∀ (u : String) (rawm : List (String × MaigretSiteData)),
      (maigret_search_username u rawm).sites_found =
        (rawm.map toMaigretEntry).filter
          (fun e => statusClaimedOrFound e.status) ∧
      (maigret_search_username u rawm).sites_not_found =
        (rawm.map toMaigretEntry).filter
          (fun e => !statusClaimedOrFound e.status)) ∧
    (∀ (raw : List Result) (email ts : String),
      (format_results raw email false ts).platforms_found =
        (raw.filter (fun r => r.exists_)).map (fun r => r.domain)) := by
  constructor
  · intro u rawm
    constructor
    · apply List.filter_congr
      intro e _
      exact statusIsFound_eq e.status
    · apply List.filter_congr
      intro e _
      rw [statusIsFound_eq e.status]
  · intro raw email ts
    exact (collectPartitions_false raw).1

/-- C9: a selection policy resolving to an empty probe set yields a valid
zero-outcome aggregate — `total_checked = 0`, empty found and not-found
lists — rather than an error, in both paths. -/
theorem C9_empty_resolved_set (e ts u : String)
    (h : is_valid_email e = true) :
    check_email_trio e [] = .ok [] ∧
    format_results [] e false ts =
      { success := true, email := e, total_checked := 0, found_count := 0,
        platforms_found := [], detailed_results := some [],
        checked_at := ts } ∧
    maigret_search_username u [] =
      { username := u, sites_found := [], sites_not_found := [],
        total_sites_checked := 0 } := by
  refine ⟨?_, rfl, rfl⟩
  simp [check_email_trio, h, runProbes, sortResults, List.mergeSort_nil]

theorem C9_empty_resolved_set_witness :
    is_valid_email "user@example.com" = true ∧
    (check_email_trio "user@example.com" [] = .ok [] ∧
     format_results [] "user@example.com" false "2025-01-01T00:00:00" =
       { success := true, email := "user@example.com", total_checked := 0,
         found_count := 0, platforms_found := [],
         detailed_results := some [], checked_at := "2025-01-01T00:00:00" } ∧
     maigret_search_username "alice" [] =
       { username := "alice", sites_found := [], sites_not_found := [],
         total_sites_checked := 0 }) :=
  ⟨by decide, C9_empty_resolved_set "user@example.com" "2025-01-01T00:00:00"
    "alice" (by decide)⟩

/-- C7: an identity string that does not match the email format makes
`check_email_trio` raise `ValueError` before any probe runs — the result
is the same error for every probe catalog, with no outcome recorded. -/
theorem C7_invalid_email_rejected (e : String) (probes : List Probe)
    (h : is_valid_email e = false) :
    check_email_trio e probes =
      .error (.valueError ("Invalid email format: " ++ e)) := by
  simp [check_email_trio, h]

theorem C7_invalid_email_rejected_witness :
    is_valid_email "notanemail" = false ∧
    check_email_trio "notanemail" [probeAmazonRaising] =
      .error (.valueError ("Invalid email format: " ++ "notanemail")) :=
  ⟨by decide, C7_invalid_email_rejected "notanemail" [probeAmazonRaising]
    (by decide)⟩

/-! ## Split and containment lemmas for the name parser -/

theorem pySplitAux_ne_nil (sep : List Char) (fuel : Nat) (l : List Char) :
    pySplitAux sep fuel l ≠ [] := by
  cases fuel with
  | zero => simp [pySplitAux]
  | succ n =>
    simp only [pySplitAux]
    cases hx : pySplitOnce sep l with
    | none => simp
    | some pr => simp

theorem containsSub_isSome (sub : List Char) (hsub : sub ≠ []) (l : List Char) :
    containsSub sub l = (pySplitOnce sub l).isSome := by
  induction l with
  | nil =>
    cases sub with
    | nil => exact absurd rfl hsub
    | cons a as => simp [containsSub, pySplitOnce]
  | cons c cs ih =>
    simp only [containsSub, pySplitOnce]
    cases hp : sub.isPrefixOf (c :: cs) with
    | true => simp
    | false =>
      cases hx : pySplitOnce sub cs with
      | none => simp [ih, hx]
      | some pr =>
        obtain ⟨p, r⟩ := pr
        simp [ih, hx]

theorem containsSub_mono (sub₁ sub₂ : List Char) (hpre : sub₂ <+: sub₁) :
    ∀ l, containsSub sub₁ l = true → containsSub sub₂ l = true := by
  intro l
  induction l with
  | nil =>
    intro h
    simp only [containsSub] at h ⊢
    have h1 : sub₁ = [] := by simpa using h
    subst h1
    have h2 : sub₂ = [] := List.prefix_nil.mp hpre
    simp [h2]
  | cons c cs ih =>
    intro h
    simp only [containsSub, Bool.or_eq_true] at h ⊢
    rcases h with h | h
    · left
      have h1 : sub₁ <+: (c :: cs) := (List.isPrefixOf_iff_prefix).mp h
      exact (List.isPrefixOf_iff_prefix).mpr (hpre.trans h1)
    · right
      exact ih h

theorem pySplit_of_splitOnce (sub l p r : List Char)
    (h : pySplitOnce sub l = some (p, r)) :
    ∃ tail, pySplit sub l = p :: tail ∧ tail ≠ [] := by
  cases l with
  | nil => simp [pySplitOnce] at h
  | cons c cs =>
    refine ⟨pySplitAux sub cs.length r, ?_, pySplitAux_ne_nil _ _ _⟩
    simp only [pySplit, List.length_cons, pySplitAux, h]

theorem pySplit_of_none (sub l : List Char) (h : pySplitOnce sub l = none) :
    pySplit sub l = [l] := by
  unfold pySplit
  cases hn : l.length with
  | zero => simp [pySplitAux]
  | succ n => simp [pySplitAux, h]

/-! ## Behaviour of the batch when probes raise -/

theorem erroredRecord_fields (nm : String) :
    (erroredRecord nm).error = true ∧ (erroredRecord nm).exists_ = false ∧
    (erroredRecord nm).name = nm ∧
    (erroredRecord nm).domain = domainMapGet nm :=
  ⟨rfl, rfl, rfl, rfl⟩

theorem runProbes_all_error (email : String) :
    ∀ (probes : List Probe),
    (∀ p ∈ probes, ∃ e nm, p.behavior email = .error e ∧
      extractName p.strRepr = some nm) →
    ∀ acc, ∃ recs, runProbes email probes acc = .ok (acc ++ recs) ∧
      recs.length = probes.length ∧
      ∀ r ∈ recs, r.error = true ∧ r.exists_ = false
  | [], _, acc => ⟨[], by simp [runProbes], by simp, by simp⟩
  | p :: ps, h, acc => by
    obtain ⟨e, nm, he, hn⟩ := h p (by simp)
    have hlaunch : launch_module_check p email acc =
        .ok (acc ++ [erroredRecord nm]) := by
      simp [launch_module_check, he, hn]
    obtain ⟨recs, hrun, hlen, hrec⟩ :=
      runProbes_all_error email ps
        (fun q hq => h q (List.mem_cons_of_mem p hq))
        (acc ++ [erroredRecord nm])
    refine ⟨erroredRecord nm :: recs, ?_, by simp [hlen], ?_⟩
    · simp only [runProbes, hlaunch]
      rw [hrun, List.append_assoc]
      rfl
    · intro r hr
      rcases List.mem_cons.mp hr with hr | hr
      · subst hr
        exact ⟨rfl, rfl⟩
      · exact hrec r hr

/-- C2 counterexample: a raising probe whose runtime representation is
`"<function"` (contains `'<function'` but not `'<function '`) drives the
error handler's `[1]` subscript into `IndexError`; the exception escapes
`launch_module_check`, terminates the batch, and reaches the caller of
`check_email_trio` — no errored outcome is recorded. -/
theorem C2_probe_isolation_counterexample :
    probeBadRepr.behavior "user@example.com" = .error .timeout ∧
    launch_module_check probeBadRepr "user@example.com" [] =
      .error .indexError ∧
    check_email_trio "user@example.com" [probeBadRepr] =
      .error .indexError := by
  refine ⟨rfl, by decide, by decide⟩

/-- C2 amended: for a probe invocation that raises, *provided the probe's
string representation parses* (its name extraction does not itself raise),
the engine converts the exception at the per-unit boundary into one
errored record — `error=true`, `exists=false`, carrying the parsed name
and the mapped domain — appended after the sibling outcomes; and a batch
over a valid identity in which every probe raises with a parseable
representation still returns a well-formed result whose length is the
resolved probe count, all entries errored. -/
theorem C2_probe_isolation_amended :
    (∀ (m : Probe) (email : String) (results : List Result) (e : Exn)
        (nm : String),
      m.behavior email = .error e → extractName m.strRepr = some nm →
      launch_module_check m email results =
        .ok (results ++ [erroredRecord nm]) ∧
      (erroredRecord nm).error = true ∧ (erroredRecord nm).exists_ = false ∧
      (erroredRecord nm).name = nm ∧
      (erroredRecord nm).domain = domainMapGet nm) ∧
    (∀ (email : String) (probes : List Probe),
      is_valid_email email = true →
      (∀ p ∈ probes, ∃ e nm, p.behavior email = .error e ∧
        extractName p.strRepr = some nm) →
      ∃ results, check_email_trio email probes = .ok results ∧
        results.length = probes.length ∧
        ∀ r ∈ results, r.error = true ∧ r.exists_ = false) := by
  constructor
  · intro m email results e nm he hn
    exact ⟨by simp [launch_module_check, he, hn], rfl, rfl, rfl, rfl⟩
  · intro email probes hv hall
    obtain ⟨recs, hrun, hlen, hrec⟩ := runProbes_all_error email probes hall []
    refine ⟨sortResults recs, ?_, ?_, ?_⟩
    · simp only [check_email_trio, hv, Bool.not_true, Bool.false_eq_true,
        if_false]
      rw [show ([] : List Result) ++ recs = recs from rfl] at hrun
      rw [hrun]
    · rw [sortResults, List.length_mergeSort, hlen]
    · intro r hr
      exact hrec r ((List.mem_mergeSort).mp hr)

theorem C2_probe_isolation_amended_witness :
    (launch_module_check probeAmazonRaising "user@example.com" [] =
       .ok ([] ++ [erroredRecord "amazon"]) ∧
     (erroredRecord "amazon").error = true ∧
     (erroredRecord "amazon").exists_ = false ∧
     (erroredRecord "amazon").name = "amazon" ∧
     (erroredRecord "amazon").domain = domainMapGet "amazon") ∧
    (∃ results,
      check_email_trio "user@example.com" [probeAmazonRaising] =
        .ok results ∧
      results.length = [probeAmazonRaising].length ∧
      ∀ r ∈ results, r.error = true ∧ r.exists_ = false) :=
  ⟨C2_probe_isolation_amended.1 probeAmazonRaising "user@example.com" []
      .timeout "amazon" rfl (by decide),
   C2_probe_isolation_amended.2 "user@example.com" [probeAmazonRaising]
      (by decide)
      (by
        intro p hp
        rw [List.mem_singleton] at hp
        subst hp
        exact ⟨.timeout, "amazon", rfl, by decide⟩)⟩

/-- C10 counterexample: the code's guard is `'<function' in str(module)`
(no trailing space) while the split separator is `'<function '`; on the
representation `"<function"` the claim predicts the name `"unknown"`, but
the code's parse takes branch `[1]` of a one-element split and raises
`IndexError` (modelled as `none`) instead. -/
theorem C10_name_parsing_counterexample :
    pyContains "<function" "<function" = true ∧
    pyContains "<function" "<function " = false ∧
    extractNameClaimed "<function" = "unknown" ∧
    extractName "<function" = none ∧
    extractName "<function" ≠ some (extractNameClaimed "<function") := by
  refine ⟨by decide, by decide, by decide, by decide, by decide⟩

/-- C10 amended: the guard tests containment of `'<function'` (without the
trailing space).  When the representation contains `'<function '` the
extracted name is the token following it, as the claim says; when it lacks
`'<function'` entirely the name is the literal `"unknown"`; in the
remaining corner — `'<function'` present but `'<function '` absent — the
parse raises `IndexError` instead of producing a name.  The recorded
domain is the `DOMAIN_MAP` entry for the name (21 mapped platforms),
defaulting to `"unknown"` for unmapped names. -/
theorem C10_name_and_domain_derivation (s nm : String) :
    (pyContains s "<function " = true →
      extractName s = some (extractNameClaimed s)) ∧
    (pyContains s "<function" = false →
      extractName s = some "unknown" ∧ extractNameClaimed s = "unknown") ∧
    (pyContains s "<function" = true → pyContains s "<function " = false →
      extractName s = none) ∧
    DOMAIN_MAP.length = 21 ∧
    (DOMAIN_MAP.lookup nm = none → domainMapGet nm = "unknown") ∧
    (∀ d, DOMAIN_MAP.lookup nm = some d → domainMapGet nm = d) ∧
    (erroredRecord nm).name = nm ∧
    (erroredRecord nm).domain = domainMapGet nm := by
  have hpre : "<function".data <+: "<function ".data := by decide
  have hsubne : ("<function ".data : List Char) ≠ [] := by decide
  refine ⟨?_, ?_, ?_, by decide, ?_, ?_, rfl, rfl⟩
  · intro hsp
    have h2 : pyContains s "<function" = true :=
      containsSub_mono _ _ hpre s.data hsp
    have hocc : containsSub "<function ".data s.data =
        (pySplitOnce "<function ".data s.data).isSome :=
      containsSub_isSome _ hsubne s.data
    rw [pyContains] at hsp
    rw [hsp] at hocc
    cases hx : pySplitOnce "<function ".data s.data with
    | none => rw [hx] at hocc; simp at hocc
    | some pr =>
      obtain ⟨p, r⟩ := pr
      obtain ⟨tail, htail, hne⟩ := pySplit_of_splitOnce _ _ _ _ hx
      cases tail with
      | nil => exact absurd rfl hne
      | cons t rest =>
        rw [extractName, if_pos (by rw [h2]), extractNameClaimed, htail]
  · intro hno
    have hno2 : pyContains s "<function " = false := by
      cases hcc : pyContains s "<function " with
      | false => rfl
      | true =>
        refine absurd (containsSub_mono _ _ hpre s.data hcc) ?_
        rw [pyContains] at hno
        simp [hno]
    have hocc : containsSub "<function ".data s.data =
        (pySplitOnce "<function ".data s.data).isSome :=
      containsSub_isSome _ hsubne s.data
    rw [pyContains] at hno2
    rw [hno2] at hocc
    constructor
    · rw [extractName, if_neg (by rw [hno]; simp)]
    · cases hx : pySplitOnce "<function ".data s.data with
      | some pr => rw [hx] at hocc; simp at hocc
      | none =>
        rw [extractNameClaimed, pySplit_of_none _ _ hx]
  · intro h2 hsp
    have hocc : containsSub "<function ".data s.data =
        (pySplitOnce "<function ".data s.data).isSome :=
      containsSub_isSome _ hsubne s.data
    rw [pyContains] at hsp
    rw [hsp] at hocc
    cases hx : pySplitOnce "<function ".data s.data with
    | some pr => rw [hx] at hocc; simp at hocc
    | none =>
      rw [extractName, if_pos (by rw [h2]), pySplit_of_none _ _ hx]
  · intro hl
    rw [domainMapGet, hl]
    rfl
  · intro d hl
    rw [domainMapGet, hl]
    rfl

theorem C10_name_and_domain_derivation_witness :
    (pyContains "<function amazon at 0x7f3a2c>" "<function " = true ∧
     extractName "<function amazon at 0x7f3a2c>" =
       some (extractNameClaimed "<function amazon at 0x7f3a2c>")) ∧
    (pyContains "a callable object" "<function" = false ∧
     extractName "a callable object" = some "unknown" ∧
     extractNameClaimed "a callable object" = "unknown") ∧
    (pyContains "<functionX>" "<function" = true ∧
     pyContains "<functionX>" "<function " = false ∧
     extractName "<functionX>" = none) ∧
    (DOMAIN_MAP.lookup "zzz" = none ∧ domainMapGet "zzz" = "unknown") ∧
    (DOMAIN_MAP.lookup "amazon" = some "amazon.com" ∧
     domainMapGet "amazon" = "amazon.com") :=
  ⟨⟨by decide, (C10_name_and_domain_derivation "<function amazon at 0x7f3a2c>"
      "x").1 (by decide)⟩,
   ⟨by decide, (C10_name_and_domain_derivation "a callable object" "x").2.1
      (by decide)⟩,
   ⟨by decide, by decide, (C10_name_and_domain_derivation "<functionX>"
      "x").2.2.1 (by decide) (by decide)⟩,
   ⟨by decide, (C10_name_and_domain_derivation "s" "zzz").2.2.2.2.1
      (by decide)⟩,
   ⟨by decide, (C10_name_and_domain_derivation "s" "amazon").2.2.2.2.2.1
      "amazon.com" (by decide)⟩⟩

/-- C3 counterexample: the username path performs no sort.  With the same
two site outcomes arriving in the orders `b, a` and `a, b`, the converter
returns the entries in raw iteration order — `["b", "a"]`, which is not
ascending — and the two permutations of the same outcomes produce
different outputs. -/
theorem C3_ordering_counterexample :
    ([("b", emptySiteData), ("a", emptySiteData)] :
        List (String × MaigretSiteData)).Perm
      [("a", emptySiteData), ("b", emptySiteData)] ∧
    (maigret_search_username "u"
        [("b", emptySiteData), ("a", emptySiteData)]).sites_not_found.map
      (fun e => e.site) = ["b", "a"] ∧
    (["b", "a"] : List String) ≠ ["a", "b"] ∧
    maigret_search_username "u" [("b", emptySiteData), ("a", emptySiteData)] ≠
      maigret_search_username "u"
        [("a", emptySiteData), ("b", emptySiteData)] := by
  refine ⟨by decide, by decide, by decide, by decide⟩

/-- C3 amended: only the email path re-sorts — `check_email_trio` returns
its results sorted by probe name ascending, and (given pairwise-distinct
probe names) the sorted output is identical for any permutation of the
arrival order of the same outcomes.  The username path emits entries in
raw-result iteration order without sorting (see the counterexample). -/
theorem C3_deterministic_ordering_amended :
    (∀ l : List Result,
      (sortResults l).Sorted (fun a b => pyStrLe a.name b.name = true)) ∧
    (∀ l₁ l₂ : List Result, l₁.Perm l₂ →
      (l₁.map (fun r => r.name)).Nodup →
      sortResults l₁ = sortResults l₂) ∧
    (∀ (email : String) (probes : List Probe) (results : List Result),
      check_email_trio email probes = .ok results →
      results.Sorted (fun a b => pyStrLe a.name b.name = true)) := by
  have hsorted : ∀ l : List Result,
      (sortResults l).Sorted (fun a b => pyStrLe a.name b.name = true) := by
    intro l
    exact @List.sorted_mergeSort Result (fun a b => pyStrLe a.name b.name)
      (fun a b c => pyStrLe_trans a.name b.name c.name)
      (fun a b => pyStrLe_total a.name b.name) l
  refine ⟨hsorted, ?_, ?_⟩
  · intro l₁ l₂ hp hnd
    have hperm : (sortResults l₁).Perm (sortResults l₂) :=
      ((List.mergeSort_perm l₁ _).trans hp).trans
        (List.mergeSort_perm l₂ _).symm
    have hnd₁ : ((sortResults l₁).map (fun r => r.name)).Nodup :=
      (((List.mergeSort_perm l₁ _).map (fun r => r.name)).nodup_iff).mpr hnd
    exact eq_of_perm_of_sorted_of_nodup_key (fun r => r.name) _ _ hperm hnd₁
      (hsorted l₁) (hsorted l₂)
  · intro email probes results h
    rw [check_email_trio] at h
    by_cases hv : is_valid_email email
    · rw [if_neg (by rw [hv]; simp)] at h
      cases hr : runProbes email probes [] with
      | ok res =>
        rw [hr] at h
        have : results = sortResults res := by
          cases h
          rfl
        rw [this]
        exact hsorted res
      | error e => rw [hr] at h; cases h
    · rw [if_pos (by simp [Bool.of_not_eq_true hv])] at h
      cases h

unseal List.merge List.mergeSort in
theorem C3_deterministic_ordering_amended_witness :
    ((sortResults [erroredRecord "b", erroredRecord "a"]).Sorted
      (fun a b => pyStrLe a.name b.name = true)) ∧
    (([erroredRecord "b", erroredRecord "a"] : List Result).Perm
        [erroredRecord "a", erroredRecord "b"] ∧
     (([erroredRecord "b", erroredRecord "a"] : List Result).map
        (fun r => r.name)).Nodup ∧
     sortResults [erroredRecord "b", erroredRecord "a"] =
       sortResults [erroredRecord "a", erroredRecord "b"]) ∧
    (check_email_trio "user@example.com" [probeAmazonRaising] =
        .ok [erroredRecord "amazon"] ∧
     ([erroredRecord "amazon"] : List Result).Sorted
        (fun a b => pyStrLe a.name b.name = true)) :=
  ⟨C3_deterministic_ordering_amended.1 [erroredRecord "b", erroredRecord "a"],
   ⟨by decide, by decide,
    C3_deterministic_ordering_amended.2.1
      [erroredRecord "b", erroredRecord "a"]
      [erroredRecord "a", erroredRecord "b"] (by decide) (by decide)⟩,
   ⟨rfl,
    C3_deterministic_ordering_amended.2.2 "user@example.com"
      [probeAmazonRaising] [erroredRecord "amazon"] rfl⟩⟩

/-- C5 counterexample: a selection naming the unknown site
`"NoSuchSite"` next to the known `"SiteA"` does not fail — no
`UnknownProbeError` exists anywhere in the code — it silently resolves to
the known subset `[siteA]`, and the batch would run on that subset. -/
theorem C5_unknown_name_counterexample :
    load_sites [siteA, siteB] 200 none (some ["SiteA", "NoSuchSite"]) =
      .ok [siteA] ∧
    (load_sites [siteA, siteB] 200 none
      (some ["SiteA", "NoSuchSite"])).isOk = true := by
  refine ⟨by decide, by decide⟩

/-- C5 amended: site resolution never fails: `_load_sites` has no
validation path and always returns a (possibly partial, possibly empty)
subset of the catalog; with an explicit non-empty `site_list`, only sites
whose names are listed are selected — unknown names are silently
ignored. -/
theorem C5_resolution_never_fails_amended (db : List Site) (top : Nat)
    (tags site_list : Option (List String)) :
    ∃ sites, load_sites db top tags site_list = .ok sites ∧
      (∀ s ∈ sites, s ∈ db) ∧
      (∀ nms, site_list = some nms → ∀ s ∈ sites,
        nms = [] ∨ s.name ∈ nms) := by
  refine ⟨ranked_sites_dict db top (tags.getD []) (site_list.getD []),
    rfl, ?_, ?_⟩
  · intro s hs
    exact List.mem_of_mem_filter (List.mem_of_mem_take hs)
  · intro nms hn s hs
    subst hn
    cases nms with
    | nil => exact Or.inl rfl
    | cons n ns =>
      refine Or.inr ?_
      have hpred := List.of_mem_filter (List.mem_of_mem_take hs)
      simp only [Option.getD_some, List.isEmpty_cons, Bool.false_or,
        Bool.and_eq_true] at hpred
      simpa using hpred.1.2

theorem C5_resolution_never_fails_amended_witness :
    ∃ sites, load_sites [siteA, siteB] 200 none
        (some ["SiteA", "NoSuchSite"]) = .ok sites ∧
      (∀ s ∈ sites, s ∈ [siteA, siteB]) ∧
      (∀ nms, (some ["SiteA", "NoSuchSite"] :
          Option (List String)) = some nms → ∀ s ∈ sites,
        nms = [] ∨ s.name ∈ nms) :=
  C5_resolution_never_fails_amended [siteA, siteB] 200 none
    (some ["SiteA", "NoSuchSite"])

end Engine
